import Mathlib

/-!
Verification of the change-detection and deduplication engine of the
Amazon ASIN tracker (`amazon_asin_tracker.py`).

The Python source is shallowly embedded: every product dict becomes a
`ProductRecord`, the in-place mutation performed by `calculate_discount`
becomes explicit state passing (the function returns the updated mapping
together with the list of discounted records), monetary amounts are
modelled as rationals, and fallible I/O (snapshot file, config file,
PA-API calls) is modelled by explicit state types / response oracles.
-/

namespace AsinTracker

/-- Configuration constants from the top of `amazon_asin_tracker.py`. -/
def MIN_DISCOUNT_PERCENT : ℚ := 15

/-- `API_WAIT_TIME = 3` seconds between API requests. -/
def API_WAIT_TIME : ℕ := 3

/-- `MAX_BATCH_SIZE = 10`, the PA-API per-request ASIN maximum. -/
def MAX_BATCH_SIZE : ℕ := 10

/-- `MAX_RETRIES = 3` attempts for an API call. -/
def MAX_RETRIES : ℕ := 3

/-- `MAX_RESULTS_STORED = 500`, the snapshot retention cap. -/
def MAX_RESULTS_STORED : ℕ := 500

/-- Canonical product record: the dict built at lines 360-372 of the source.
`discount_amount` / `discount_percent` are the two keys added in place by
`calculate_discount`; `posted` is the flag added in `main` before saving. -/
structure ProductRecord where
  asin : String
  title : String
  current_price : Option ℚ
  original_price : Option ℚ
  image_url : Option String
  detail_page_url : String
  availability : String
  is_in_stock : Bool
  seller : String
  is_amazon : Bool
  timestamp : String
  discount_amount : Option ℚ := none
  discount_percent : Option ℚ := none
  posted : Bool := false
deriving DecidableEq, Repr

/-- Python dict assignment `m[k] = v`: overwrite in place if the key exists,
append otherwise. -/
def dictInsert {β : Type} (m : List (String × β)) (k : String) (v : β) :
    List (String × β) :=
  if m.any (fun p => p.1 == k) then
    m.map (fun p => if p.1 = k then (k, v) else p)
  else m ++ [(k, v)]

/-- `calculate_discount` (lines 472-495).  The Python function iterates over
`product_info.items()`, skips records missing a price or with
`original_price <= current_price`, and otherwise adds `discount_amount` and
`discount_percent` to the record dict in place, collecting the mutated
records in `discounted_products`.  The in-place mutation is made explicit:
the first component is the mapping after the pass, the second is the
returned list. -/
def calculate_discount :
    List (String × ProductRecord) → List (String × ProductRecord) × List ProductRecord
  | [] => ([], [])
  | (asin, product) :: rest =>
    match product.current_price, product.original_price with
    | some current_price, some original_price =>
      if original_price ≤ current_price then
        let r := calculate_discount rest
        ((asin, product) :: r.1, r.2)
      else
        let discount_amount := original_price - current_price
        let discount_percent := discount_amount / original_price * 100
        let product2 := { product with
          discount_amount := some discount_amount,
          discount_percent := some discount_percent }
        let r := calculate_discount rest
        ((asin, product2) :: r.1, product2 :: r.2)
    | _, _ =>
      let r := calculate_discount rest
      ((asin, product) :: r.1, r.2)

/-- Characterization helper for proofs: the effect of one iteration of the
`calculate_discount` loop on a single record. -/
def discountUpdate (product : ProductRecord) : ProductRecord :=
  match product.current_price, product.original_price with
  | some current_price, some original_price =>
    if original_price ≤ current_price then product
    else
      { product with
        discount_amount := some (original_price - current_price),
        discount_percent := some ((original_price - current_price) / original_price * 100) }
  | _, _ => product

/-- Characterization helper for proofs: whether a record passes the price
check of `calculate_discount` (both prices present and a strict markdown). -/
def qualifiesB (product : ProductRecord) : Bool :=
  match product.current_price, product.original_price with
  | some current_price, some original_price => decide (current_price < original_price)
  | _, _ => false

/-- One entry of the `stock_history` dict (lines 464-468). -/
structure StockRecord where
  is_in_stock : Bool
  availability : String
  price : Option ℚ
deriving DecidableEq, Repr

/-- `create_stock_history` (lines 456-470): builds a dict keyed by ASIN from
the previous results. -/
def create_stock_history (previous_results : List ProductRecord) :
    List (String × StockRecord) :=
  previous_results.foldl
    (fun stock_history item =>
      dictInsert stock_history item.asin
        { is_in_stock := item.is_in_stock
          availability := item.availability
          price := item.current_price })
    []

/-- The restock-detection loop in `main` (lines 933-951): for each fetched
record, skip non-Amazon sellers when the filter is on; emit the record when
its ASIN has a previous stock entry that was out of stock and the record is
now in stock.  A record with no previous entry is only logged, never
emitted. -/
def detect_restock (product_info : List (String × ProductRecord))
    (stock_history : List (String × StockRecord)) (amazon_only : Bool) :
    List ProductRecord :=
  match product_info with
  | [] => []
  | (asin, product) :: rest =>
    if amazon_only ∧ ¬ product.is_amazon then
      detect_restock rest stock_history amazon_only
    else
      match stock_history.lookup asin with
      | some previous_stock =>
        if ¬ previous_stock.is_in_stock ∧ product.is_in_stock then
          product :: detect_restock rest stock_history amazon_only
        else
          detect_restock rest stock_history amazon_only
      | none => detect_restock rest stock_history amazon_only

/-- Sort key used at line 972: `x["discount_percent"]` (items reaching the
sort always carry the field; `getD 0` matches the `get` default used by the
threshold filter at line 966). -/
def discountKey (item : ProductRecord) : ℚ :=
  item.discount_percent.getD 0

/-- Ordering relation for the descending stable sort at line 972
(`sort(key=discount_percent, reverse=True)`, Python sorts are stable). -/
def discountSortRel (a b : ProductRecord) : Prop :=
  discountKey b ≤ discountKey a

instance : DecidableRel discountSortRel := fun a b =>
  inferInstanceAs (Decidable (discountKey b ≤ discountKey a))

instance : IsTotal ProductRecord discountSortRel :=
  ⟨fun a b => le_total (discountKey b) (discountKey a)⟩

instance : IsTrans ProductRecord discountSortRel :=
  ⟨fun _ _ _ hab hbc => le_trans hbc hab⟩

/-- The discount pipeline in `main` (lines 956-972): compute discounts,
filter to Amazon sellers when requested, filter by the minimum discount
percent (inclusive), drop ASINs already present in the previous snapshot,
and sort by discount percent descending (stable).  Returns the updated
mapping (in-place mutation made explicit) and the final event stream. -/
def detect_discounts (product_info : List (String × ProductRecord))
    (previous_asins : List String) (amazon_only : Bool) (min_discount : ℚ) :
    List (String × ProductRecord) × List ProductRecord :=
  let res := calculate_discount product_info
  let all_discounted_items :=
    if amazon_only then res.2.filter (fun item => item.is_amazon) else res.2
  let filtered_items :=
    all_discounted_items.filter (fun item => decide (min_discount ≤ discountKey item))
  let new_discounted_items :=
    filtered_items.filter (fun item => ! previous_asins.contains item.asin)
  (res.1, new_discounted_items.insertionSort discountSortRel)

/-- The whole change-detection pass of one run of `main` (lines 904-975).
In the source the restock loop runs before `calculate_discount`, but it
appends to `newly_in_stock` the same mutable dicts that
`calculate_discount` then updates in place, so by the end of the run the
restocked records carry the discount fields; the state-passing embedding
therefore selects the restocked records from the updated mapping (the
restock predicate only reads fields `calculate_discount` never changes). -/
def run_detection (product_info : List (String × ProductRecord))
    (previous_results : List ProductRecord) (amazon_only : Bool)
    (min_discount : ℚ) :
    List ProductRecord × List ProductRecord × List (String × ProductRecord) :=
  let stock_history := create_stock_history previous_results
  let previous_asins := previous_results.map (fun item => item.asin)
  let res := detect_discounts product_info previous_asins amazon_only min_discount
  let newly_in_stock := detect_restock res.1 stock_history amazon_only
  (newly_in_stock, res.2, res.1)

/-- Lines 977-987 of `main`: the merged list that gets saved — freshly
fetched records (with the `posted` flag set from the previous-snapshot ASIN
set) first, then previous records whose ASIN was not fetched this run. -/
def build_all_products (product_info : List (String × ProductRecord))
    (previous_results : List ProductRecord) (previous_asins : List String) :
    List ProductRecord :=
  let all_products :=
    product_info.map (fun p => { p.2 with posted := previous_asins.contains p.2.asin })
  all_products ++
    previous_results.filter (fun old => ! product_info.any (fun p => p.1 == old.asin))

/-- `save_results` (lines 417-429): truncates to `MAX_RESULTS_STORED` before
writing; the value returned here is the list that is written to disk. -/
def save_results (all_products : List ProductRecord) : List ProductRecord :=
  all_products.take MAX_RESULTS_STORED

/-- State of the persisted snapshot file `asin_results.json`, abstracting
the JSON layer: the file is missing, exists with whitespace-only content,
exists with content that fails JSON parsing, or holds a well-formed list of
records. -/
inductive SnapshotFile where
  | missing
  | empty
  | malformed
  | wellFormed (records : List ProductRecord)
deriving DecidableEq, Repr

/-- `load_previous_results` (lines 431-454), returning the loaded list and
the file state after the call: a missing file is created as `[]`; an empty
file returns `[]` without rewriting; a JSON decode error rewrites the file
as `[]`; a well-formed file is read and left untouched. -/
def load_previous_results : SnapshotFile → List ProductRecord × SnapshotFile
  | SnapshotFile.missing => ([], SnapshotFile.wellFormed [])
  | SnapshotFile.empty => ([], SnapshotFile.empty)
  | SnapshotFile.malformed => ([], SnapshotFile.wellFormed [])
  | SnapshotFile.wellFormed records => (records, SnapshotFile.wellFormed records)

/-- `save_results` seen at the file level: the truncated list is dumped as
JSON, always yielding a well-formed file. -/
def save_results_file (all_products : List ProductRecord) : SnapshotFile :=
  SnapshotFile.wellFormed (save_results all_products)

/-- The tracking configuration `tracking_asins.json` (lines 379-383). -/
structure TrackingConfig where
  min_discount_percent : ℚ
  amazon_only : Bool
  tracking_asins : List String
deriving DecidableEq, Repr

/-- `default_list` as initialised at lines 379-383 (before any mutation). -/
def default_list : TrackingConfig :=
  { min_discount_percent := MIN_DISCOUNT_PERCENT
    amazon_only := false
    tracking_asins := [] }

/-- The sample ASINs added at lines 390-396, only in the file-absent branch. -/
def sample_asins : List String :=
  ["B0CC944LHR", "B0C65KM3ZT", "B08JKFH23G", "B002VPUOOE", "B004Y9IXZW"]

/-- State of the tracking config file: absent, present but unparsable
(including the empty file, which raises `JSONDecodeError` at line 406), or
present with a parsed configuration. -/
inductive ConfigFile where
  | absent
  | malformed
  | valid (config : TrackingConfig)
deriving DecidableEq, Repr

/-- `load_asin_list` (lines 376-415), returning the configuration and the
file state after the call.  Note: the sample ASINs are appended to
`default_list` only in the file-absent branch (line 390); the
`JSONDecodeError` branch (lines 408-415) persists `default_list` with its
original empty `tracking_asins`. -/
def load_asin_list : ConfigFile → TrackingConfig × ConfigFile
  | ConfigFile.absent =>
    let cfg := { default_list with tracking_asins := sample_asins }
    (cfg, ConfigFile.valid cfg)
  | ConfigFile.malformed => (default_list, ConfigFile.valid default_list)
  | ConfigFile.valid config => (config, ConfigFile.valid config)

/-- Number of occurrences of `pat` in `l` (one per starting position). -/
def countOccs (pat : List Char) : List Char → ℕ
  | [] => 0
  | c :: rest => (if pat.isPrefixOf (c :: rest) then 1 else 0) + countOccs pat rest

/-- Occurrence count of a pattern string inside a string. -/
def strCount (pat s : String) : ℕ := countOccs pat.data s.data

/-- Python's `pat in s` substring test. -/
def containsSub (pat s : String) : Bool := decide (0 < strCount pat s)

/-- Number of `tag=` query-parameter markers in a URL: occurrences of
`?tag=` plus occurrences of `&tag=`. -/
def tag_param_count (url : String) : ℕ :=
  strCount "?tag=" url + strCount "&tag=" url

/-- Detail-URL normalization (lines 350-357): use the upstream
`DetailPageURL` when present, appending the affiliate tag only when neither
`?tag=` nor `&tag=` occurs in it and the partner tag is nonempty; when no
upstream link is present, synthesize the URL from the ASIN and the partner
tag. -/
def normalize_detail_url (asin partner_tag : String)
    (detail_page_url : Option String) : String :=
  match detail_page_url with
  | none => "https://www.amazon.co.jp/dp/" ++ asin ++ "?tag=" ++ partner_tag
  | some url =>
    if ¬ containsSub "?tag=" url ∧ ¬ containsSub "&tag=" url ∧ partner_tag ≠ "" then
      let url_separator := if containsSub "?" url then "&" else "?"
      url ++ url_separator ++ "tag=" ++ partner_tag
    else url

/-- The availability phrases tested at line 334. -/
def in_stock_markers : List String := ["在庫あり", "通常配送無料", "お届け予定"]

/-- The relevant fields of one item of a PA-API `GetItems` response, after
the nested-field extraction of lines 302-348 (a `none` models a missing
nested path). -/
structure RawItem where
  asin : Option String
  title : Option String
  price : Option ℚ
  saving_basis : Option ℚ
  availability_message : Option String
  merchant_name : Option String
  image_url : Option String
  detail_page_url : Option String
deriving DecidableEq, Repr

/-- Normalization of one response item (lines 302-372); items with no ASIN
are skipped. -/
def normalize_item (partner_tag now : String) (item : RawItem) :
    Option (String × ProductRecord) :=
  match item.asin with
  | none => none
  | some asin =>
    let title := item.title.getD "不明"
    let availability := item.availability_message.getD "不明"
    let is_in_stock :=
      match item.availability_message with
      | none => false
      | some msg => in_stock_markers.any (fun marker => containsSub marker msg)
    let seller := item.merchant_name.getD "不明"
    let is_amazon :=
      match item.merchant_name with
      | none => false
      | some name => decide (name = "Amazon" ∨ name = "Amazon.co.jp")
    some (asin,
      { asin := asin
        title := title
        current_price := item.price
        original_price := item.saving_basis
        image_url := item.image_url
        detail_page_url := normalize_detail_url asin partner_tag item.detail_page_url
        availability := availability
        is_in_stock := is_in_stock
        seller := seller
        is_amazon := is_amazon
        timestamp := now })

/-- The normalization loop of `get_product_info_batch` (lines 301-374):
builds the result dict keyed by ASIN. -/
def normalize_items (partner_tag now : String) (items : List RawItem) :
    List (String × ProductRecord) :=
  items.foldl
    (fun result item =>
      match normalize_item partner_tag now item with
      | none => result
      | some (asin, record) => dictInsert result asin record)
    []

/-- The `ItemsResult` part of a decoded response body; `none` models a body
with no `ItemsResult`/`Items` (lines 297-299). -/
structure ItemsData where
  items : Option (List RawItem)
deriving DecidableEq, Repr

/-- Outcome of one HTTP attempt inside `call_pa_api` (lines 201-259). -/
inductive ApiResponse where
  | rateLimited
  | httpError (code : ℕ)
  | errorEnvelope
  | transportError
  | malformedBody
  | ok (data : ItemsData)
deriving DecidableEq, Repr

/-- Whether an attempt outcome is a successful, well-formed, error-free
response. -/
def ApiResponse.isOk : ApiResponse → Bool
  | ApiResponse.ok _ => true
  | _ => false

/-- Result of `call_pa_api`: the decoded data (or `None`), the sequence of
`time.sleep` durations performed, and the number of attempts made. -/
structure CallResult where
  data : Option ItemsData
  sleeps : List ℕ
  attempts : ℕ
deriving DecidableEq, Repr

/-- The retry loop of `call_pa_api` (lines 201-261), parameterised by an
oracle giving the outcome of each attempt.  `attempt` is the loop index and
`remaining = MAX_RETRIES - attempt` the iterations left.  HTTP 429 sleeps
`API_WAIT_TIME * 2 ^ attempt` and retries; every other failure (non-200
status, error envelope in the body, transport error, JSON decode error)
sleeps `API_WAIT_TIME` and retries while attempts remain, else yields
`none`.  The `finally` block adds one more `API_WAIT_TIME` sleep on every
non-final attempt, including before a successful return. -/
def call_pa_api_from (responses : ℕ → ApiResponse) :
    (attempt : ℕ) → (remaining : ℕ) → CallResult
  | _, 0 => { data := none, sleeps := [], attempts := 0 }
  | attempt, remaining + 1 =>
    let final_sleep : List ℕ :=
      if attempt < MAX_RETRIES - 1 then [API_WAIT_TIME] else []
    match responses attempt with
    | ApiResponse.ok data =>
      { data := some data, sleeps := final_sleep, attempts := 1 }
    | ApiResponse.rateLimited =>
      let r := call_pa_api_from responses (attempt + 1) remaining
      { data := r.data
        sleeps := API_WAIT_TIME * 2 ^ attempt :: (final_sleep ++ r.sleeps)
        attempts := 1 + r.attempts }
    | _ =>
      if attempt < MAX_RETRIES - 1 then
        let r := call_pa_api_from responses (attempt + 1) remaining
        { data := r.data
          sleeps := API_WAIT_TIME :: (final_sleep ++ r.sleeps)
          attempts := 1 + r.attempts }
      else
        { data := none, sleeps := final_sleep, attempts := 1 }

/-- `call_pa_api` (lines 192-261). -/
def call_pa_api (responses : ℕ → ApiResponse) : CallResult :=
  call_pa_api_from responses 0 MAX_RETRIES

/-- `get_product_info_batch` (lines 263-374): returns the empty mapping
when the credentials are missing, when `call_pa_api` returns `None`, or
when the body carries no `ItemsResult`/`Items`; otherwise normalizes each
item. -/
def get_product_info_batch (pa_api_ready : Bool) (partner_tag now : String)
    (responses : ℕ → ApiResponse) : List (String × ProductRecord) :=
  if ¬ pa_api_ready then []
  else
    match (call_pa_api responses).data with
    | none => []
    | some data =>
      match data.items with
      | none => []
      | some items => normalize_items partner_tag now items

/-- The chunking loop of `main` (lines 922-928): successive slices of at
most `MAX_BATCH_SIZE` ASINs. -/
def chunk_batches (tracking_asins : List String) : List (List String) :=
  match tracking_asins with
  | [] => []
  | a :: rest =>
    (a :: rest).take MAX_BATCH_SIZE :: chunk_batches ((a :: rest).drop MAX_BATCH_SIZE)
termination_by tracking_asins.length
decreasing_by
  simp only [List.length_drop, List.length_cons, MAX_BATCH_SIZE]
  omega

/-! ## Basic lemmas about `calculate_discount` -/

lemma calculate_discount_fst : ∀ product_info : List (String × ProductRecord),
    (calculate_discount product_info).1 =
      product_info.map (fun p => (p.1, discountUpdate p.2))
  | [] => rfl
  | (k, p) :: rest => by
    have ih := calculate_discount_fst rest
    cases hcp : p.current_price with
    | none => simp [calculate_discount, discountUpdate, hcp, ih]
    | some cp =>
      cases hop : p.original_price with
      | none => simp [calculate_discount, discountUpdate, hcp, hop, ih]
      | some op =>
        by_cases hle : op ≤ cp
        · simp [calculate_discount, discountUpdate, hcp, hop, hle, ih]
        · simp [calculate_discount, discountUpdate, hcp, hop, hle, ih]

lemma calculate_discount_snd : ∀ product_info : List (String × ProductRecord),
    (calculate_discount product_info).2 =
      (product_info.map (fun p => discountUpdate p.2)).filter qualifiesB
  | [] => rfl
  | (k, p) :: rest => by
    have ih := calculate_discount_snd rest
    cases hcp : p.current_price with
    | none => simp [calculate_discount, discountUpdate, qualifiesB, hcp, ih]
    | some cp =>
      cases hop : p.original_price with
      | none => simp [calculate_discount, discountUpdate, qualifiesB, hcp, hop, ih]
      | some op =>
        by_cases hle : op ≤ cp
        · simp [calculate_discount, discountUpdate, qualifiesB, hcp, hop, hle, ih,
            not_lt.mpr hle]
        · simp only [calculate_discount, hcp, hop, if_neg hle]
          have hq : qualifiesB (discountUpdate p) = true := by
            simp [qualifiesB, discountUpdate, hcp, hop, hle, not_le.mp hle]
          simp [ih, List.filter, hq]
          simp [discountUpdate, hcp, hop, hle]

lemma discountUpdate_idem (product : ProductRecord) :
    discountUpdate (discountUpdate product) = discountUpdate product := by
  cases hcp : product.current_price with
  | none => simp [discountUpdate, hcp]
  | some cp =>
    cases hop : product.original_price with
    | none => simp [discountUpdate, hcp, hop]
    | some op =>
      by_cases hle : op ≤ cp
      · simp [discountUpdate, hcp, hop, hle]
      · simp [discountUpdate, hcp, hop, hle]

lemma calculate_discount_idem (product_info : List (String × ProductRecord)) :
    calculate_discount ((calculate_discount product_info).1) =
      ((calculate_discount product_info).1, (calculate_discount product_info).2) := by
  have h1 : (calculate_discount ((calculate_discount product_info).1)).1 =
      (calculate_discount product_info).1 := by
    rw [calculate_discount_fst, calculate_discount_fst, List.map_map]
    apply List.map_congr_left
    intro p _
    simp [discountUpdate_idem]
  have h2 : (calculate_discount ((calculate_discount product_info).1)).2 =
      (calculate_discount product_info).2 := by
    rw [calculate_discount_snd, calculate_discount_fst, calculate_discount_snd,
      List.map_map]
    congr 1
    apply List.map_congr_left
    intro p _
    simp [discountUpdate_idem]
  exact Prod.ext h1 h2

lemma mem_calculate_discount_snd {product_info : List (String × ProductRecord)}
    {r : ProductRecord} (h : r ∈ (calculate_discount product_info).2) :
    ∃ cp op : ℚ, r.current_price = some cp ∧ r.original_price = some op ∧ cp < op ∧
      r.discount_amount = some (op - cp) ∧
      r.discount_percent = some ((op - cp) / op * 100) := by
  rw [calculate_discount_snd] at h
  obtain ⟨hmem, hq⟩ := List.mem_filter.mp h
  obtain ⟨p, _, hp⟩ := List.mem_map.mp hmem
  subst hp
  cases hcp : p.2.current_price with
  | none => simp [qualifiesB, discountUpdate, hcp] at hq
  | some cp =>
    cases hop : p.2.original_price with
    | none => simp [qualifiesB, discountUpdate, hcp, hop] at hq
    | some op =>
      have hlt : cp < op := by
        by_contra hge
        simp [qualifiesB, discountUpdate, hcp, hop, not_lt.mp hge] at hq
        exact hge hq
      refine ⟨cp, op, ?_, ?_, hlt, ?_, ?_⟩ <;>
        simp [discountUpdate, hcp, hop, not_le.mpr hlt]

/-! ## C1: the discount invariant of `calculate_discount` -/

/-- C1: for every record of the current batch (which carries no discount
fields when it reaches `calculate_discount`), the corresponding record of
the updated mapping carries the discount fields iff both prices are present
and `original_price > current_price`; when attached,
`discount_amount = original_price - current_price` and
`discount_percent = (original_price - current_price) / original_price * 100`
exactly; in every other case the record keeps no discount fields
(it is returned entirely unchanged). -/
theorem calculate_discount_invariant (product_info : List (String × ProductRecord))
    (hclean : ∀ p ∈ product_info,
      p.2.discount_amount = none ∧ p.2.discount_percent = none) :
    List.Forall₂ (fun inp out : String × ProductRecord =>
      (∀ cp op : ℚ, inp.2.current_price = some cp → inp.2.original_price = some op →
        cp < op →
          out.2.discount_amount = some (op - cp) ∧
          out.2.discount_percent = some ((op - cp) / op * 100)) ∧
      ((inp.2.current_price = none ∨ inp.2.original_price = none ∨
          ∃ cp op : ℚ, inp.2.current_price = some cp ∧ inp.2.original_price = some op ∧
            op ≤ cp) →
        out.2.discount_amount = none ∧ out.2.discount_percent = none))
      product_info (calculate_discount product_info).1 := by
  rw [calculate_discount_fst]
  rw [List.forall₂_map_right_iff]
  rw [List.forall₂_same]
  intro p hp
  constructor
  · intro cp op hcp hop hlt
    simp [discountUpdate, hcp, hop, not_le.mpr hlt]
  · intro hbad
    have hupd : discountUpdate p.2 = p.2 := by
      rcases hbad with h | h | ⟨cp, op, hcp, hop, hle⟩
      · simp [discountUpdate, h]
      · cases hcp : p.2.current_price <;> simp [discountUpdate, hcp, h]
      · simp [discountUpdate, hcp, hop, hle]
    rw [hupd]
    exact hclean p hp

/-- Witness for C1 at a concrete two-record batch (one qualifying markdown,
one record with `current_price >= original_price`). -/
theorem calculate_discount_invariant_witness :
    List.Forall₂ (fun inp out : String × ProductRecord =>
      (∀ cp op : ℚ, inp.2.current_price = some cp → inp.2.original_price = some op →
        cp < op →
          out.2.discount_amount = some (op - cp) ∧
          out.2.discount_percent = some ((op - cp) / op * 100)) ∧
      ((inp.2.current_price = none ∨ inp.2.original_price = none ∨
          ∃ cp op : ℚ, inp.2.current_price = some cp ∧ inp.2.original_price = some op ∧
            op ≤ cp) →
        out.2.discount_amount = none ∧ out.2.discount_percent = none))
      [("B0CC944LHR",
        { asin := "B0CC944LHR", title := "steam iron", current_price := some 1000,
          original_price := some 2000, image_url := none, detail_page_url := "u1",
          availability := "在庫あり", is_in_stock := true, seller := "Amazon",
          is_amazon := true, timestamp := "t" }),
       ("B0C65KM3ZT",
        { asin := "B0C65KM3ZT", title := "eye warmer", current_price := some 1500,
          original_price := some 1200, image_url := none, detail_page_url := "u2",
          availability := "在庫あり", is_in_stock := true, seller := "Amazon",
          is_amazon := true, timestamp := "t" })]
      (calculate_discount
        [("B0CC944LHR",
          { asin := "B0CC944LHR", title := "steam iron", current_price := some 1000,
            original_price := some 2000, image_url := none, detail_page_url := "u1",
            availability := "在庫あり", is_in_stock := true, seller := "Amazon",
            is_amazon := true, timestamp := "t" }),
         ("B0C65KM3ZT",
          { asin := "B0C65KM3ZT", title := "eye warmer", current_price := some 1500,
            original_price := some 1200, image_url := none, detail_page_url := "u2",
            availability := "在庫あり", is_in_stock := true, seller := "Amazon",
            is_amazon := true, timestamp := "t" })]).1 :=
  calculate_discount_invariant _ (by decide)

/-! ## C10: frame property of the in-place discount mutation -/

/-- C10: `calculate_discount` updates the mapping in place: a qualifying
record is replaced by the same record with exactly the two discount fields
set (every other field unchanged, expressed by the record update), a
non-qualifying record is returned identically; the returned list contains
exactly record values held in the updated mapping; and, provided the
current batch fits the retention cap, every discounted record reaches the
persisted snapshot with its discount fields intact. -/
theorem calculate_discount_frame (product_info : List (String × ProductRecord)) :
    List.Forall₂ (fun inp out : String × ProductRecord =>
      out.1 = inp.1 ∧
      (∀ cp op : ℚ, inp.2.current_price = some cp → inp.2.original_price = some op →
        cp < op →
          out.2 = { inp.2 with
            discount_amount := some (op - cp),
            discount_percent := some ((op - cp) / op * 100) }) ∧
      ((inp.2.current_price = none ∨ inp.2.original_price = none ∨
          ∃ cp op : ℚ, inp.2.current_price = some cp ∧ inp.2.original_price = some op ∧
            op ≤ cp) →
        out.2 = inp.2))
      product_info (calculate_discount product_info).1 ∧
    (∀ r ∈ (calculate_discount product_info).2,
      ∃ p ∈ (calculate_discount product_info).1, p.2 = r) ∧
    (∀ (previous_results : List ProductRecord) (previous_asins : List String),
      (calculate_discount product_info).1.length ≤ MAX_RESULTS_STORED →
      ∀ r ∈ (calculate_discount product_info).2,
        ∃ s ∈ save_results
          (build_all_products (calculate_discount product_info).1
            previous_results previous_asins),
          s.asin = r.asin ∧ s.discount_amount = r.discount_amount ∧
            s.discount_percent = r.discount_percent) := by
  refine ⟨?_, ?_, ?_⟩
  · rw [calculate_discount_fst, List.forall₂_map_right_iff, List.forall₂_same]
    intro p _
    refine ⟨rfl, ?_, ?_⟩
    · intro cp op hcp hop hlt
      simp [discountUpdate, hcp, hop, not_le.mpr hlt]
    · intro hbad
      rcases hbad with h | h | ⟨cp, op, hcp, hop, hle⟩
      · simp [discountUpdate, h]
      · cases hcp : p.2.current_price <;> simp [discountUpdate, hcp, h]
      · simp [discountUpdate, hcp, hop, hle]
  · intro r hr
    rw [calculate_discount_snd] at hr
    obtain ⟨hmem, _⟩ := List.mem_filter.mp hr
    obtain ⟨p, hp, hpr⟩ := List.mem_map.mp hmem
    rw [calculate_discount_fst]
    exact ⟨(p.1, discountUpdate p.2), List.mem_map.mpr ⟨p, hp, rfl⟩, hpr⟩
  · intro previous_results previous_asins hlen r hr
    rw [calculate_discount_snd] at hr
    obtain ⟨hmem, _⟩ := List.mem_filter.mp hr
    obtain ⟨p, hp, hpr⟩ := List.mem_map.mp hmem
    refine ⟨{ r with posted := previous_asins.contains r.asin }, ?_, by simp, by simp,
      by simp⟩
    unfold save_results build_all_products
    rw [List.take_append_eq_append_take]
    apply List.mem_append_left
    have hmem2 : { r with posted := previous_asins.contains r.asin } ∈
        (calculate_discount product_info).1.map
          (fun q => { q.2 with posted := previous_asins.contains q.2.asin }) := by
      apply List.mem_map.mpr
      refine ⟨(p.1, discountUpdate p.2), ?_, ?_⟩
      · rw [calculate_discount_fst]
        exact List.mem_map.mpr ⟨p, hp, rfl⟩
      · simp [hpr]
    rw [List.take_of_length_le]
    · exact hmem2
    · rw [List.length_map]
      exact hlen

/-! ## C5: snapshot-load recovery -/

/-- C5 counterexample: the claim says a missing, empty, or malformed
snapshot file is re-initialized to a well-formed empty sequence as a side
effect of loading; but an existing empty file is returned as the empty
sequence without any rewrite, leaving the persisted state non-well-formed. -/
theorem load_previous_results_empty_counterexample :
    load_previous_results SnapshotFile.empty = ([], SnapshotFile.empty) ∧
    SnapshotFile.empty ≠ SnapshotFile.wellFormed [] := by
  constructor
  · rfl
  · intro h
    cases h

/-- C5 (amended): loading a missing, empty, or malformed snapshot file
returns the empty sequence instead of raising; the missing and malformed
cases re-initialize the persisted state to a well-formed empty sequence,
while the empty-file case leaves the file untouched; in all three cases a
later load again yields the empty sequence and a subsequent save succeeds,
producing a well-formed file. -/
theorem load_previous_results_recovery (f : SnapshotFile)
    (h : f = SnapshotFile.missing ∨ f = SnapshotFile.empty ∨ f = SnapshotFile.malformed) :
    (load_previous_results f).1 = [] ∧
    (f ≠ SnapshotFile.empty → (load_previous_results f).2 = SnapshotFile.wellFormed []) ∧
    (f = SnapshotFile.empty → (load_previous_results f).2 = SnapshotFile.empty) ∧
    (load_previous_results (load_previous_results f).2).1 = [] ∧
    (∀ products : List ProductRecord,
      save_results_file products =
        SnapshotFile.wellFormed (products.take MAX_RESULTS_STORED)) := by
  rcases h with h | h | h <;> subst h
  · refine ⟨rfl, fun _ => rfl, fun h => ?_, rfl, fun _ => rfl⟩
    simp at h
  · refine ⟨rfl, fun h => ?_, fun _ => rfl, rfl, fun _ => rfl⟩
    exact absurd rfl h
  · refine ⟨rfl, fun _ => rfl, fun h => ?_, rfl, fun _ => rfl⟩
    simp at h

/-- Witness for C5 (amended) at the malformed file state. -/
theorem load_previous_results_recovery_witness :
    (load_previous_results SnapshotFile.malformed).1 = [] ∧
    (SnapshotFile.malformed ≠ SnapshotFile.empty →
      (load_previous_results SnapshotFile.malformed).2 = SnapshotFile.wellFormed []) ∧
    (SnapshotFile.malformed = SnapshotFile.empty →
      (load_previous_results SnapshotFile.malformed).2 = SnapshotFile.empty) ∧
    (load_previous_results (load_previous_results SnapshotFile.malformed).2).1 = [] ∧
    (∀ products : List ProductRecord,
      save_results_file products =
        SnapshotFile.wellFormed (products.take MAX_RESULTS_STORED)) :=
  load_previous_results_recovery SnapshotFile.malformed (Or.inr (Or.inr rfl))

/-! ## C6: snapshot merge, retention cap and round-trip -/

/-- C6: the snapshot written at run end is the freshly fetched records
(with their `posted` flag) first, followed by previous records whose ASIN
was not fetched this run, truncated to the first `MAX_RESULTS_STORED`
entries; its length never exceeds the cap; everything saved comes from the
merge; and a load-then-save with no fetched records loses no data whenever
the loaded sequence is within the cap. -/
theorem snapshot_save_cap (product_info : List (String × ProductRecord))
    (previous_results : List ProductRecord) (previous_asins : List String) :
    save_results (build_all_products product_info previous_results previous_asins) =
      (product_info.map
          (fun p : String × ProductRecord =>
            { p.2 with posted := previous_asins.contains p.2.asin }) ++
        previous_results.filter
          (fun old : ProductRecord =>
            ! product_info.any (fun p => p.1 == old.asin))).take
        MAX_RESULTS_STORED ∧
    (save_results (build_all_products product_info previous_results
        previous_asins)).length ≤ MAX_RESULTS_STORED ∧
    (∀ r ∈ save_results (build_all_products product_info previous_results
        previous_asins),
      r ∈ build_all_products product_info previous_results previous_asins) ∧
    build_all_products [] previous_results previous_asins = previous_results ∧
    (previous_results.length ≤ MAX_RESULTS_STORED →
      save_results (build_all_products [] previous_results previous_asins) =
        previous_results) := by
  have hroundtrip : build_all_products [] previous_results previous_asins =
      previous_results := by
    simp [build_all_products]
  refine ⟨rfl, ?_, ?_, hroundtrip, ?_⟩
  · exact List.length_take_le _ _
  · intro r hr
    exact List.take_subset _ _ hr
  · intro hlen
    rw [hroundtrip]
    exact List.take_of_length_le hlen

/-! ## C8: config-file regeneration -/

/-- C8 counterexample: the claim says an unparsable tracking config is
regenerated with the fixed built-in sample id list, but the
`JSONDecodeError` branch of `load_asin_list` persists `default_list`, whose
tracked-id list is empty (the sample ASINs are added only in the
file-absent branch). -/
theorem load_asin_list_malformed_counterexample :
    (load_asin_list ConfigFile.malformed).1.tracking_asins = [] ∧
    ([] : List String) ≠ sample_asins := by
  constructor
  · rfl
  · intro h
    cases h

/-- C8 (amended): an absent tracking config file is regenerated with the
fixed built-in sample id list and the default thresholds (minimum discount
percent 15, seller-only false) and persisted immediately; an unparsable
file is regenerated with the same default thresholds but an empty id list,
also persisted immediately; in both cases the regenerated configuration is
returned. -/
theorem load_asin_list_defaults :
    (load_asin_list ConfigFile.absent).1.tracking_asins = sample_asins ∧
    (load_asin_list ConfigFile.absent).1.min_discount_percent = 15 ∧
    (load_asin_list ConfigFile.absent).1.amazon_only = false ∧
    (load_asin_list ConfigFile.absent).2 =
      ConfigFile.valid (load_asin_list ConfigFile.absent).1 ∧
    (load_asin_list ConfigFile.malformed).1.tracking_asins = [] ∧
    (load_asin_list ConfigFile.malformed).1.min_discount_percent = 15 ∧
    (load_asin_list ConfigFile.malformed).1.amazon_only = false ∧
    (load_asin_list ConfigFile.malformed).2 =
      ConfigFile.valid (load_asin_list ConfigFile.malformed).1 := by
  refine ⟨rfl, ?_, rfl, rfl, rfl, ?_, rfl, rfl⟩ <;>
    norm_num [load_asin_list, default_list, MIN_DISCOUNT_PERCENT]

/-! ## C3: the restock rule -/

lemma mem_detect_restock (stock_history : List (String × StockRecord))
    (amazon_only : Bool) (r : ProductRecord) :
    ∀ product_info : List (String × ProductRecord),
      (r ∈ detect_restock product_info stock_history amazon_only ↔
        ∃ k : String, (k, r) ∈ product_info ∧
          (amazon_only = true → r.is_amazon = true) ∧
          (∃ ps : StockRecord, stock_history.lookup k = some ps ∧
            ps.is_in_stock = false) ∧
          r.is_in_stock = true)
  | [] => by simp [detect_restock]
  | (k0, p0) :: tl => by
    have ih := mem_detect_restock stock_history amazon_only r tl
    by_cases hskip : amazon_only ∧ ¬ p0.is_amazon
    · rw [show detect_restock ((k0, p0) :: tl) stock_history amazon_only =
          detect_restock tl stock_history amazon_only from by
          rw [detect_restock]
          exact if_pos hskip]
      rw [ih]
      constructor
      · rintro ⟨k, hkmem, hc⟩
        exact ⟨k, List.mem_cons_of_mem _ hkmem, hc⟩
      · rintro ⟨k, hkmem, hamz, hps, hin⟩
        rcases List.mem_cons.mp hkmem with heq | hmem
        · exfalso
          injection heq with hk hr
          subst hr
          exact hskip.2 (hamz hskip.1)
        · exact ⟨k, hmem, hamz, hps, hin⟩
    · have hnoskip : detect_restock ((k0, p0) :: tl) stock_history amazon_only =
          match stock_history.lookup k0 with
          | some previous_stock =>
            if ¬ previous_stock.is_in_stock ∧ p0.is_in_stock then
              p0 :: detect_restock tl stock_history amazon_only
            else detect_restock tl stock_history amazon_only
          | none => detect_restock tl stock_history amazon_only := by
        rw [detect_restock]
        exact if_neg hskip
      have hamz0 : amazon_only = true → p0.is_amazon = true := by
        intro hao
        by_contra hby
        exact hskip ⟨hao, hby⟩
      cases hl : stock_history.lookup k0 with
      | none =>
        have hred : detect_restock ((k0, p0) :: tl) stock_history amazon_only =
            detect_restock tl stock_history amazon_only := by
          rw [hnoskip, hl]
        rw [hred, ih]
        constructor
        · rintro ⟨k, hkmem, hc⟩
          exact ⟨k, List.mem_cons_of_mem _ hkmem, hc⟩
        · rintro ⟨k, hkmem, hamz, ⟨ps, hps, hpsin⟩, hin⟩
          rcases List.mem_cons.mp hkmem with heq | hmem
          · exfalso
            injection heq with hk hr
            subst hk
            rw [hl] at hps
            cases hps
          · exact ⟨k, hmem, hamz, ⟨ps, hps, hpsin⟩, hin⟩
      | some ps0 =>
        have hred : detect_restock ((k0, p0) :: tl) stock_history amazon_only =
            if ¬ ps0.is_in_stock ∧ p0.is_in_stock then
              p0 :: detect_restock tl stock_history amazon_only
            else detect_restock tl stock_history amazon_only := by
          rw [hnoskip, hl]
        by_cases hio : ¬ ps0.is_in_stock ∧ p0.is_in_stock
        · rw [hred, if_pos hio]
          constructor
          · intro hmem
            rcases List.mem_cons.mp hmem with heq | hmem2
            · subst heq
              refine ⟨k0, List.mem_cons_self _ _, hamz0, ⟨ps0, hl, ?_⟩, hio.2⟩
              simpa using hio.1
            · obtain ⟨k, hkmem, hc⟩ := ih.mp hmem2
              exact ⟨k, List.mem_cons_of_mem _ hkmem, hc⟩
          · rintro ⟨k, hkmem, hamz, hps, hin⟩
            rcases List.mem_cons.mp hkmem with heq | hmem
            · injection heq with hk hr
              subst hr
              exact List.mem_cons_self _ _
            · exact List.mem_cons_of_mem _ (ih.mpr ⟨k, hmem, hamz, hps, hin⟩)
        · rw [hred, if_neg hio, ih]
          constructor
          · rintro ⟨k, hkmem, hc⟩
            exact ⟨k, List.mem_cons_of_mem _ hkmem, hc⟩
          · rintro ⟨k, hkmem, hamz, ⟨ps, hps, hpsin⟩, hin⟩
            rcases List.mem_cons.mp hkmem with heq | hmem
            · exfalso
              injection heq with hk hr
              subst hk
              subst hr
              rw [hl] at hps
              injection hps with hps0
              subst hps0
              exact hio ⟨by simp [hpsin], hin⟩
            · exact ⟨k, hmem, hamz, ⟨ps, hps, hpsin⟩, hin⟩

/-- C3: assuming each fetched mapping entry is keyed by its record's ASIN
(true of every mapping built by `get_product_info_batch`), the restocked
stream contains exactly the current records that pass the seller filter,
had a previous stock entry recorded as out of stock, and are in stock now;
in particular a record whose ASIN has no previous stock entry is never
emitted, even if it is currently in stock (cold-start suppression). -/
theorem detect_restock_correct (product_info : List (String × ProductRecord))
    (stock_history : List (String × StockRecord)) (amazon_only : Bool)
    (hkeys : ∀ p ∈ product_info, p.2.asin = p.1) :
    (∀ r : ProductRecord,
      r ∈ detect_restock product_info stock_history amazon_only ↔
        ((∃ p ∈ product_info, p.2 = r) ∧
          (amazon_only = true → r.is_amazon = true) ∧
          (∃ ps : StockRecord, stock_history.lookup r.asin = some ps ∧
            ps.is_in_stock = false) ∧
          r.is_in_stock = true)) ∧
    (∀ r : ProductRecord, stock_history.lookup r.asin = none →
      r ∉ detect_restock product_info stock_history amazon_only) := by
  have hmain : ∀ r : ProductRecord,
      r ∈ detect_restock product_info stock_history amazon_only ↔
        ((∃ p ∈ product_info, p.2 = r) ∧
          (amazon_only = true → r.is_amazon = true) ∧
          (∃ ps : StockRecord, stock_history.lookup r.asin = some ps ∧
            ps.is_in_stock = false) ∧
          r.is_in_stock = true) := by
    intro r
    rw [mem_detect_restock]
    constructor
    · rintro ⟨k, hkmem, hamz, ⟨ps, hps, hpsin⟩, hin⟩
      have hk : r.asin = k := hkeys (k, r) hkmem
      exact ⟨⟨(k, r), hkmem, rfl⟩, hamz, ⟨ps, by rw [hk]; exact hps, hpsin⟩, hin⟩
    · rintro ⟨⟨p, hp, hpr⟩, hamz, ⟨ps, hps, hpsin⟩, hin⟩
      refine ⟨p.1, ?_, hamz, ⟨ps, ?_, hpsin⟩, hin⟩
      · rw [show (p.1, r) = p from by rw [← hpr]]
        exact hp
      · rw [← hkeys p hp, hpr]
        exact hps
  refine ⟨hmain, ?_⟩
  intro r hnone hmem
  obtain ⟨_, _, ⟨ps, hps, _⟩, _⟩ := (hmain r).mp hmem
  rw [hnone] at hps
  cases hps

/-- Witness for C3: a single-record batch whose ASIN was out of stock in
the previous snapshot and is in stock now. -/
theorem detect_restock_correct_witness :
    (∀ r : ProductRecord,
      r ∈ detect_restock
          [("B004Y9IXZW",
            { asin := "B004Y9IXZW", title := "cola", current_price := some 120,
              original_price := none, image_url := none, detail_page_url := "u",
              availability := "在庫あり", is_in_stock := true, seller := "Amazon",
              is_amazon := true, timestamp := "t" })]
          [("B004Y9IXZW",
            { is_in_stock := false, availability := "在庫切れ", price := some 130 })]
          false ↔
        ((∃ p ∈ ([("B004Y9IXZW",
            { asin := "B004Y9IXZW", title := "cola", current_price := some 120,
              original_price := none, image_url := none, detail_page_url := "u",
              availability := "在庫あり", is_in_stock := true, seller := "Amazon",
              is_amazon := true, timestamp := "t" })] :
            List (String × ProductRecord)), p.2 = r) ∧
          (false = true → r.is_amazon = true) ∧
          (∃ ps : StockRecord,
            (([("B004Y9IXZW",
              { is_in_stock := false, availability := "在庫切れ",
                price := some 130 })] :
              List (String × StockRecord))).lookup r.asin = some ps ∧
            ps.is_in_stock = false) ∧
          r.is_in_stock = true)) ∧
    (∀ r : ProductRecord,
      (([("B004Y9IXZW",
        { is_in_stock := false, availability := "在庫切れ",
          price := some 130 })] :
        List (String × StockRecord))).lookup r.asin = none →
      r ∉ detect_restock
          [("B004Y9IXZW",
            { asin := "B004Y9IXZW", title := "cola", current_price := some 120,
              original_price := none, image_url := none, detail_page_url := "u",
              availability := "在庫あり", is_in_stock := true, seller := "Amazon",
              is_amazon := true, timestamp := "t" })]
          [("B004Y9IXZW",
            { is_in_stock := false, availability := "在庫切れ", price := some 130 })]
          false) :=
  detect_restock_correct _ _ _ (by decide)

/-! ## C9: idempotence of the change-detection pass -/

/-- C9: the change-detection pass is a pure function of the current
records and the previous snapshot, and the in-place discount mutation is
idempotent: running the pass again on the state left by a first run (same
previous snapshot) reproduces the identical classified output — restocked
stream, discount event stream, and updated mapping. -/
theorem run_detection_idempotent (product_info : List (String × ProductRecord))
    (previous_results : List ProductRecord) (amazon_only : Bool) (min_discount : ℚ) :
    run_detection (run_detection product_info previous_results amazon_only
        min_discount).2.2 previous_results amazon_only min_discount =
      run_detection product_info previous_results amazon_only min_discount := by
  simp [run_detection, detect_discounts, calculate_discount_idem]

/-! ## C2: the discount event stream -/

lemma filter_orderedInsert_of_ne (q : ℚ) (r : ProductRecord)
    (hr : discountKey r ≠ q) :
    ∀ l : List ProductRecord,
      (l.orderedInsert discountSortRel r).filter (fun x => decide (discountKey x = q)) =
        l.filter (fun x => decide (discountKey x = q))
  | [] => by simp [List.orderedInsert, hr]
  | b :: t => by
    by_cases hrb : discountSortRel r b
    · simp [List.orderedInsert, hrb, hr]
    · simp only [List.orderedInsert, if_neg hrb, List.filter_cons]
      rw [filter_orderedInsert_of_ne q r hr t]

lemma filter_orderedInsert_of_eq (q : ℚ) (r : ProductRecord)
    (hr : discountKey r = q) :
    ∀ l : List ProductRecord, l.Sorted discountSortRel →
      (l.orderedInsert discountSortRel r).filter (fun x => decide (discountKey x = q)) =
        r :: l.filter (fun x => decide (discountKey x = q))
  | [], _ => by simp [List.orderedInsert, hr]
  | b :: t, hs => by
    by_cases hrb : discountSortRel r b
    · simp [List.orderedInsert, hrb, hr]
    · have hbq : discountKey b ≠ q := by
        intro hbq
        apply hrb
        unfold discountSortRel
        rw [hbq, hr]
      simp only [List.orderedInsert, if_neg hrb, List.filter_cons]
      rw [filter_orderedInsert_of_eq q r hr t hs.of_cons]
      simp [hbq]

lemma filter_key_insertionSort (q : ℚ) :
    ∀ l : List ProductRecord,
      (l.insertionSort discountSortRel).filter (fun x => decide (discountKey x = q)) =
        l.filter (fun x => decide (discountKey x = q))
  | [] => rfl
  | x :: t => by
    have hs := List.sorted_insertionSort discountSortRel t
    by_cases hx : discountKey x = q
    · rw [List.insertionSort, filter_orderedInsert_of_eq q x hx _ hs,
        filter_key_insertionSort q t]
      simp [List.filter_cons, hx]
    · rw [List.insertionSort, filter_orderedInsert_of_ne q x hx _,
        filter_key_insertionSort q t]
      simp [List.filter_cons, hx]

/-- C2: a record appears in the discount event stream iff it carries a
discount (it is in the list produced by `calculate_discount`), it passes
the first-party seller filter when that filter is enabled, its discount
percent meets the configured minimum (inclusive), and its ASIN is absent
from the previous snapshot's ASIN set; every member moreover satisfies the
discount invariant with the exact percent formula; the stream is sorted by
discount percent descending; and the sort is stable (records with equal
discount percent keep the relative order they had before sorting). -/
theorem detect_discounts_correct (product_info : List (String × ProductRecord))
    (previous_asins : List String) (amazon_only : Bool) (min_discount : ℚ) :
    (∀ r : ProductRecord,
      r ∈ (detect_discounts product_info previous_asins amazon_only min_discount).2 ↔
        (r ∈ (calculate_discount product_info).2 ∧
          (amazon_only = true → r.is_amazon = true) ∧
          min_discount ≤ discountKey r ∧
          previous_asins.contains r.asin = false)) ∧
    (∀ r ∈ (detect_discounts product_info previous_asins amazon_only min_discount).2,
      ∃ cp op : ℚ, r.current_price = some cp ∧ r.original_price = some op ∧ cp < op ∧
        r.discount_percent = some ((op - cp) / op * 100)) ∧
    List.Sorted discountSortRel
      (detect_discounts product_info previous_asins amazon_only min_discount).2 ∧
    (∀ q : ℚ,
      (detect_discounts product_info previous_asins amazon_only min_discount).2.filter
          (fun x => decide (discountKey x = q)) =
        (((if amazon_only then
              (calculate_discount product_info).2.filter (fun item => item.is_amazon)
            else (calculate_discount product_info).2).filter
              (fun item => decide (min_discount ≤ discountKey item))).filter
            (fun item => ! previous_asins.contains item.asin)).filter
          (fun x => decide (discountKey x = q))) := by
  have hstream :
      (detect_discounts product_info previous_asins amazon_only min_discount).2 =
        ((((if amazon_only then
              (calculate_discount product_info).2.filter (fun item => item.is_amazon)
            else (calculate_discount product_info).2).filter
              (fun item => decide (min_discount ≤ discountKey item))).filter
            (fun item => ! previous_asins.contains item.asin)).insertionSort
          discountSortRel) := rfl
  have hmem : ∀ r : ProductRecord,
      r ∈ (detect_discounts product_info previous_asins amazon_only min_discount).2 ↔
        (r ∈ (calculate_discount product_info).2 ∧
          (amazon_only = true → r.is_amazon = true) ∧
          min_discount ≤ discountKey r ∧
          previous_asins.contains r.asin = false) := by
    intro r
    rw [hstream]
    cases amazon_only with
    | false =>
      simp [List.mem_filter, and_assoc]
      tauto
    | true =>
      simp [List.mem_filter, and_assoc, and_comm]
  refine ⟨hmem, ?_, ?_, ?_⟩
  · intro r hr
    obtain ⟨hcd, _, _, _⟩ := (hmem r).mp hr
    obtain ⟨cp, op, hcp, hop, hlt, _, hpct⟩ := mem_calculate_discount_snd hcd
    exact ⟨cp, op, hcp, hop, hlt, hpct⟩
  · rw [hstream]
    exact List.sorted_insertionSort discountSortRel _
  · intro q
    rw [hstream]
    exact filter_key_insertionSort q _

/-! ## C4: gateway retry policy -/

lemma chunk_batches_length_le : ∀ (n : ℕ) (l : List String), l.length ≤ n →
    ∀ b ∈ chunk_batches l, b.length ≤ MAX_BATCH_SIZE
  | _, [], _ => by simp [chunk_batches]
  | 0, a :: rest, hlen => by simp at hlen
  | n + 1, a :: rest, hlen => by
    intro b hb
    rw [chunk_batches] at hb
    rcases List.mem_cons.mp hb with heq | hmem
    · subst heq
      exact List.length_take_le _ _
    · refine chunk_batches_length_le n ((a :: rest).drop MAX_BATCH_SIZE) ?_ b hmem
      simp only [List.length_drop, List.length_cons, MAX_BATCH_SIZE]
      simp only [List.length_cons] at hlen
      omega

lemma call_from_attempts_le (responses : ℕ → ApiResponse) :
    ∀ (remaining attempt : ℕ),
      (call_pa_api_from responses attempt remaining).attempts ≤ remaining
  | 0, _ => Nat.le_refl 0
  | remaining + 1, attempt => by
    have ih := call_from_attempts_le responses remaining (attempt + 1)
    by_cases hlt : attempt < MAX_RETRIES - 1 <;>
      cases hres : responses attempt <;>
        simp [call_pa_api_from, hres, hlt] <;> omega

lemma call_from_all_fail (responses : ℕ → ApiResponse) :
    ∀ (remaining attempt : ℕ), attempt + remaining = MAX_RETRIES →
      (∀ k, attempt ≤ k → k < MAX_RETRIES → (responses k).isOk = false) →
      (call_pa_api_from responses attempt remaining).data = none ∧
      (call_pa_api_from responses attempt remaining).attempts = remaining
  | 0, attempt, _, _ => by simp [call_pa_api_from]
  | remaining + 1, attempt, hinv, h => by
    have hM : MAX_RETRIES = 3 := rfl
    have hfail : (responses attempt).isOk = false :=
      h attempt (Nat.le_refl _) (by omega)
    cases hres : responses attempt with
    | ok d =>
      rw [hres] at hfail
      simp [ApiResponse.isOk] at hfail
    | rateLimited =>
      have ih := call_from_all_fail responses remaining (attempt + 1) (by omega)
        (fun k hk1 hk2 => h k (by omega) hk2)
      simp [call_pa_api_from, hres, ih.1, ih.2]
      omega
    | httpError code =>
      by_cases hlt : attempt < MAX_RETRIES - 1
      · have ih := call_from_all_fail responses remaining (attempt + 1) (by omega)
          (fun k hk1 hk2 => h k (by omega) hk2)
        simp [call_pa_api_from, hres, hlt, ih.1, ih.2]
        omega
      · have hrem : remaining = 0 := by omega
        subst hrem
        simp [call_pa_api_from, hres, hlt]
    | errorEnvelope =>
      by_cases hlt : attempt < MAX_RETRIES - 1
      · have ih := call_from_all_fail responses remaining (attempt + 1) (by omega)
          (fun k hk1 hk2 => h k (by omega) hk2)
        simp [call_pa_api_from, hres, hlt, ih.1, ih.2]
        omega
      · have hrem : remaining = 0 := by omega
        subst hrem
        simp [call_pa_api_from, hres, hlt]
    | transportError =>
      by_cases hlt : attempt < MAX_RETRIES - 1
      · have ih := call_from_all_fail responses remaining (attempt + 1) (by omega)
          (fun k hk1 hk2 => h k (by omega) hk2)
        simp [call_pa_api_from, hres, hlt, ih.1, ih.2]
        omega
      · have hrem : remaining = 0 := by omega
        subst hrem
        simp [call_pa_api_from, hres, hlt]
    | malformedBody =>
      by_cases hlt : attempt < MAX_RETRIES - 1
      · have ih := call_from_all_fail responses remaining (attempt + 1) (by omega)
          (fun k hk1 hk2 => h k (by omega) hk2)
        simp [call_pa_api_from, hres, hlt, ih.1, ih.2]
        omega
      · have hrem : remaining = 0 := by omega
        subst hrem
        simp [call_pa_api_from, hres, hlt]

lemma call_from_success (responses : ℕ → ApiResponse) (k : ℕ) (d : ItemsData) :
    ∀ (remaining attempt : ℕ), attempt + remaining = MAX_RETRIES →
      (∀ j, attempt ≤ j → j < k → (responses j).isOk = false) →
      attempt ≤ k → k < MAX_RETRIES → responses k = ApiResponse.ok d →
      (call_pa_api_from responses attempt remaining).data = some d
  | 0, attempt, hinv, _, hak, hkM, _ => absurd hak (by omega)
  | remaining + 1, attempt, hinv, hfail, hak, hkM, hok => by
    by_cases heq : attempt = k
    · subst heq
      simp [call_pa_api_from, hok]
    · have hlt2 : attempt < k := lt_of_le_of_ne hak heq
      have hfa : (responses attempt).isOk = false :=
        hfail attempt (Nat.le_refl _) hlt2
      have ih := call_from_success responses k d remaining (attempt + 1) (by omega)
        (fun j hj1 hj2 => hfail j (by omega) hj2) (by omega) hkM hok
      have hlt3 : attempt < MAX_RETRIES - 1 := by omega
      cases hres : responses attempt with
      | ok d2 =>
        rw [hres] at hfa
        simp [ApiResponse.isOk] at hfa
      | rateLimited => simp [call_pa_api_from, hres, ih]
      | httpError code => simp [call_pa_api_from, hres, hlt3, ih]
      | errorEnvelope => simp [call_pa_api_from, hres, hlt3, ih]
      | transportError => simp [call_pa_api_from, hres, hlt3, ih]
      | malformedBody => simp [call_pa_api_from, hres, hlt3, ih]

lemma call_from_backoff (responses : ℕ → ApiResponse) (k : ℕ) :
    ∀ (remaining attempt : ℕ), attempt + remaining = MAX_RETRIES →
      (∀ j, attempt ≤ j → j < k → (responses j).isOk = false) →
      attempt ≤ k → k < MAX_RETRIES → responses k = ApiResponse.rateLimited →
      API_WAIT_TIME * 2 ^ k ∈ (call_pa_api_from responses attempt remaining).sleeps
  | 0, attempt, hinv, _, hak, hkM, _ => absurd hak (by omega)
  | remaining + 1, attempt, hinv, hfail, hak, hkM, h429 => by
    by_cases heq : attempt = k
    · subst heq
      simp [call_pa_api_from, h429]
    · have hlt2 : attempt < k := lt_of_le_of_ne hak heq
      have hfa : (responses attempt).isOk = false :=
        hfail attempt (Nat.le_refl _) hlt2
      have ih := call_from_backoff responses k remaining (attempt + 1) (by omega)
        (fun j hj1 hj2 => hfail j (by omega) hj2) (by omega) hkM h429
      have hlt3 : attempt < MAX_RETRIES - 1 := by omega
      cases hres : responses attempt with
      | ok d2 =>
        rw [hres] at hfa
        simp [ApiResponse.isOk] at hfa
      | rateLimited => simp [call_pa_api_from, hres, List.mem_append, ih]
      | httpError code => simp [call_pa_api_from, hres, hlt3, List.mem_append, ih]
      | errorEnvelope => simp [call_pa_api_from, hres, hlt3, List.mem_append, ih]
      | transportError => simp [call_pa_api_from, hres, hlt3, List.mem_append, ih]
      | malformedBody => simp [call_pa_api_from, hres, hlt3, List.mem_append, ih]

/-- C4: the catalog gateway chunks the tracked id list into batches of at
most `MAX_BATCH_SIZE` (10) ids; `call_pa_api` makes at most `MAX_RETRIES`
(3) attempts; any non-successful attempt outcome — HTTP 429 (slept with
exponential backoff `API_WAIT_TIME * 2 ^ attempt`), another non-200
status, an error envelope in the body, a transport failure, or a malformed
body — leads to the next attempt being made (a later successful attempt
within the budget yields its data); and when all attempts fail the call
yields no data, so the chunk produces the empty record mapping. -/
theorem call_pa_api_retry_policy (responses : ℕ → ApiResponse)
    (tracking_asins : List String) :
    (∀ batch ∈ chunk_batches tracking_asins, batch.length ≤ MAX_BATCH_SIZE) ∧
    (call_pa_api responses).attempts ≤ MAX_RETRIES ∧
    ((∀ k, k < MAX_RETRIES → (responses k).isOk = false) →
      (call_pa_api responses).data = none ∧
      (call_pa_api responses).attempts = MAX_RETRIES ∧
      ∀ (pa_api_ready : Bool) (partner_tag now : String),
        get_product_info_batch pa_api_ready partner_tag now responses = []) ∧
    (∀ (k : ℕ) (d : ItemsData), (∀ j, j < k → (responses j).isOk = false) →
      k < MAX_RETRIES → responses k = ApiResponse.ok d →
      (call_pa_api responses).data = some d) ∧
    (∀ k : ℕ, (∀ j, j < k → (responses j).isOk = false) → k < MAX_RETRIES →
      responses k = ApiResponse.rateLimited →
      API_WAIT_TIME * 2 ^ k ∈ (call_pa_api responses).sleeps) := by
  refine ⟨?_, ?_, ?_, ?_, ?_⟩
  · exact chunk_batches_length_le tracking_asins.length tracking_asins (Nat.le_refl _)
  · exact call_from_attempts_le responses MAX_RETRIES 0
  · intro hall
    have h := call_from_all_fail responses MAX_RETRIES 0 (Nat.zero_add _)
      (fun k _ hk2 => hall k hk2)
    refine ⟨h.1, h.2, ?_⟩
    intro pa_api_ready partner_tag now
    by_cases hready : pa_api_ready <;>
      simp [get_product_info_batch, hready, call_pa_api, h.1]
  · intro k d hfail hkM hok
    exact call_from_success responses k d MAX_RETRIES 0 (Nat.zero_add _)
      (fun j _ hj2 => hfail j hj2) (Nat.zero_le _) hkM hok
  · intro k hfail hkM h429
    exact call_from_backoff responses k MAX_RETRIES 0 (Nat.zero_add _)
      (fun j _ hj2 => hfail j hj2) (Nat.zero_le _) hkM h429

/-! ## C7: the affiliate-tag invariant of detail URLs -/

lemma isPrefixOf_self_append : ∀ p q : List Char, p.isPrefixOf (p ++ q) = true
  | [], _ => by simp [List.isPrefixOf]
  | c :: t, q => by simp [List.isPrefixOf, isPrefixOf_self_append t q]

lemma countOccs_le_count (c : Char) (p : List Char) :
    ∀ l : List Char, countOccs (c :: p) l ≤ l.count c
  | [] => Nat.le_refl 0
  | d :: t => by
    have ih := countOccs_le_count c p t
    have hunfold : countOccs (c :: p) (d :: t) =
        (if (c :: p).isPrefixOf (d :: t) then 1 else 0) + countOccs (c :: p) t := rfl
    rw [hunfold, List.count_cons]
    by_cases h : (c :: p).isPrefixOf (d :: t)
    · have hdc : c = d := by
        simp [List.isPrefixOf] at h
        exact h.1
      have hbeq : (d == c) = true := by simp [hdc]
      rw [if_pos h, if_pos hbeq]
      omega
    · rw [if_neg h]
      by_cases hdc : d = c
      · have hbeq : (d == c) = true := by simp [hdc]
        rw [if_pos hbeq]
        omega
      · have hbeq : ¬ ((d == c) = true) := by simp [hdc]
        rw [if_neg hbeq]
        omega

lemma one_le_countOccs_append (p : List Char) (hp : p ≠ []) :
    ∀ a b : List Char, 1 ≤ countOccs p (a ++ (p ++ b))
  | [], b => by
    cases hp2 : p with
    | nil => exact absurd hp2 hp
    | cons c t =>
      subst hp2
      have hpre : (c :: t).isPrefixOf (c :: (t ++ b)) = true :=
        isPrefixOf_self_append (c :: t) b
      have hunfold : countOccs (c :: t) ([] ++ ((c :: t) ++ b)) =
          (if (c :: t).isPrefixOf (c :: (t ++ b)) then 1 else 0) +
            countOccs (c :: t) (t ++ b) := rfl
      rw [hunfold, if_pos hpre]
      omega
  | a :: as, b => by
    have ih := one_le_countOccs_append p hp as b
    have hunfold : countOccs p ((a :: as) ++ (p ++ b)) =
        (if p.isPrefixOf (a :: (as ++ (p ++ b))) then 1 else 0) +
          countOccs p (as ++ (p ++ b)) := rfl
    rw [hunfold]
    exact le_trans ih (Nat.le_add_left _ _)

/-- C7 counterexample: an upstream detail link that already carries two
`tag=` query parameters is used unchanged by the normalization, so the
produced URL contains two `tag=` query parameters, not exactly one. -/
theorem normalize_detail_url_counterexample :
    normalize_detail_url "B000TEST00" "mytag-22"
        (some "https://www.amazon.co.jp/dp/B000TEST00?tag=aaa&tag=bbb") =
      "https://www.amazon.co.jp/dp/B000TEST00?tag=aaa&tag=bbb" ∧
    tag_param_count "https://www.amazon.co.jp/dp/B000TEST00?tag=aaa&tag=bbb" = 2 := by
  constructor
  · rfl
  · decide

/-- C7 (amended): with a nonempty partner tag, every URL produced by the
normalization contains at least one `tag=` parameter marker; an upstream
link already containing a `?tag=` or `&tag=` marker is used unchanged (so
upstream duplicates survive and "exactly one" can fail); an upstream link
with no marker gets the affiliate tag appended exactly once, with `?` or
`&` as appropriate; and the URL synthesized when no upstream link exists
contains exactly one `tag=` marker whenever the id and the partner tag
contain no `?` or `&` characters. -/
theorem normalize_detail_url_tagging (asin partner_tag : String) :
    (∀ url : String,
      0 < strCount "?tag=" url ∨ 0 < strCount "&tag=" url →
        normalize_detail_url asin partner_tag (some url) = url) ∧
    (∀ url : String, strCount "?tag=" url = 0 → strCount "&tag=" url = 0 →
      partner_tag ≠ "" →
        normalize_detail_url asin partner_tag (some url) =
          url ++ (if containsSub "?" url then "&" else "?") ++ "tag=" ++ partner_tag) ∧
    (partner_tag ≠ "" → ∀ upstream : Option String,
      1 ≤ tag_param_count (normalize_detail_url asin partner_tag upstream)) ∧
    (partner_tag ≠ "" →
      asin.data.count '?' = 0 → asin.data.count '&' = 0 →
      partner_tag.data.count '?' = 0 → partner_tag.data.count '&' = 0 →
      tag_param_count (normalize_detail_url asin partner_tag none) = 1) := by
  have happend : ∀ s t : String, (s ++ t).data = s.data ++ t.data := fun _ _ => rfl
  have hshape : ∀ url sep tail pt : String,
      ((url ++ sep ++ tail ++ pt)).data =
        url.data ++ ((sep.data ++ tail.data) ++ pt.data) := by
    intro url sep tail pt
    rw [happend, happend, happend, List.append_assoc, List.append_assoc,
      ← List.append_assoc sep.data]
  have hkeep : ∀ url : String,
      0 < strCount "?tag=" url ∨ 0 < strCount "&tag=" url →
        normalize_detail_url asin partner_tag (some url) = url := by
    intro url hmark
    rw [normalize_detail_url]
    apply if_neg
    rintro ⟨h1, h2, _⟩
    rcases hmark with hm | hm
    · exact h1 (by simp [containsSub, hm])
    · exact h2 (by simp [containsSub, hm])
  have happly : ∀ url : String, strCount "?tag=" url = 0 → strCount "&tag=" url = 0 →
      partner_tag ≠ "" →
        normalize_detail_url asin partner_tag (some url) =
          url ++ (if containsSub "?" url then "&" else "?") ++ "tag=" ++ partner_tag := by
    intro url h1 h2 hpt
    rw [normalize_detail_url]
    rw [if_pos]
    refine ⟨by simp [containsSub, h1], by simp [containsSub, h2], hpt⟩
  have hamp : ("&" : String).data ++ ("tag=" : String).data = ("&tag=" : String).data := by
    decide
  have hqm : ("?" : String).data ++ ("tag=" : String).data = ("?tag=" : String).data := by
    decide
  have happge : ∀ url : String,
      1 ≤ strCount "?tag=" (url ++ "?" ++ "tag=" ++ partner_tag) := by
    intro url
    show 1 ≤ countOccs ("?tag=" : String).data
      (url ++ "?" ++ "tag=" ++ partner_tag).data
    rw [hshape, hqm]
    exact one_le_countOccs_append ("?tag=" : String).data (by decide) _ _
  have hampge : ∀ url : String,
      1 ≤ strCount "&tag=" (url ++ "&" ++ "tag=" ++ partner_tag) := by
    intro url
    show 1 ≤ countOccs ("&tag=" : String).data
      (url ++ "&" ++ "tag=" ++ partner_tag).data
    rw [hshape, hamp]
    exact one_le_countOccs_append ("&tag=" : String).data (by decide) _ _
  have hsynthdata : ("https://www.amazon.co.jp/dp/" ++ asin ++ "?tag=" ++
      partner_tag).data =
        (("https://www.amazon.co.jp/dp/" : String).data ++ asin.data) ++
          (("?tag=" : String).data ++ partner_tag.data) := by
    rw [happend, happend, happend, List.append_assoc]
  have hsynth_ge : 1 ≤ strCount "?tag="
      ("https://www.amazon.co.jp/dp/" ++ asin ++ "?tag=" ++ partner_tag) := by
    show 1 ≤ countOccs ("?tag=" : String).data
      ("https://www.amazon.co.jp/dp/" ++ asin ++ "?tag=" ++ partner_tag).data
    rw [hsynthdata]
    exact one_le_countOccs_append ("?tag=" : String).data (by decide) _ _
  refine ⟨hkeep, happly, ?_, ?_⟩
  · intro hpt upstream
    cases upstream with
    | none =>
      show 1 ≤ tag_param_count
        ("https://www.amazon.co.jp/dp/" ++ asin ++ "?tag=" ++ partner_tag)
      exact le_trans hsynth_ge (Nat.le_add_right _ _)
    | some url =>
      by_cases h1 : 0 < strCount "?tag=" url
      · rw [hkeep url (Or.inl h1)]
        exact le_trans h1 (Nat.le_add_right _ _)
      · by_cases h2 : 0 < strCount "&tag=" url
        · rw [hkeep url (Or.inr h2)]
          exact le_trans h2 (Nat.le_add_left _ _)
        · have h1z : strCount "?tag=" url = 0 := by omega
          have h2z : strCount "&tag=" url = 0 := by omega
          rw [happly url h1z h2z hpt]
          by_cases hsep : containsSub "?" url
          · rw [if_pos hsep]
            exact le_trans (hampge url) (Nat.le_add_left _ _)
          · rw [if_neg hsep]
            exact le_trans (happge url) (Nat.le_add_right _ _)
  · intro hpt hq1 hq2 hp1 hp2
    have hcq : (("https://www.amazon.co.jp/dp/" ++ asin ++ "?tag=" ++
        partner_tag).data).count '?' = 1 := by
      rw [hsynthdata]
      rw [List.count_append, List.count_append, List.count_append]
      rw [hq1, hp1]
      decide
    have hca : (("https://www.amazon.co.jp/dp/" ++ asin ++ "?tag=" ++
        partner_tag).data).count '&' = 0 := by
      rw [hsynthdata]
      rw [List.count_append, List.count_append, List.count_append]
      rw [hq2, hp2]
      decide
    have hle1 : strCount "?tag="
        ("https://www.amazon.co.jp/dp/" ++ asin ++ "?tag=" ++ partner_tag) ≤ 1 := by
      have h := countOccs_le_count '?' ("tag=" : String).data
        ("https://www.amazon.co.jp/dp/" ++ asin ++ "?tag=" ++ partner_tag).data
      rw [hcq] at h
      exact h
    have hle2 : strCount "&tag="
        ("https://www.amazon.co.jp/dp/" ++ asin ++ "?tag=" ++ partner_tag) = 0 := by
      have h := countOccs_le_count '&' ("tag=" : String).data
        ("https://www.amazon.co.jp/dp/" ++ asin ++ "?tag=" ++ partner_tag).data
      rw [hca] at h
      exact Nat.le_zero.mp h
    have h1 : strCount "?tag="
        ("https://www.amazon.co.jp/dp/" ++ asin ++ "?tag=" ++ partner_tag) = 1 :=
      Nat.le_antisymm hle1 hsynth_ge
    show tag_param_count
      ("https://www.amazon.co.jp/dp/" ++ asin ++ "?tag=" ++ partner_tag) = 1
    rw [tag_param_count, h1, hle2]

end AsinTracker
